/-
Verification of the react-advance-hooks adapter catalogue.

Shallow embedding of the hooks in src/unnamed/part_000 and
src/src/hooks/hooksComp.tsx.  React component state is modelled as
explicit state values; effects, timers and async resolutions are
modelled as explicit step functions; JavaScript exceptions are
modelled with Except.
-/
import Mathlib

namespace ReactHooks

/-! ## Shared data model -/

/-- The `{ data, loading, error }` record used by `useFetch` and
`useFetchRetry` (`FetchState<T>` in the source). -/
structure FetchState (T : Type) where
  data : Option T
  loading : Bool
  error : Option String
  deriving DecidableEq, Repr

/-! ## useStep (part_000 lines 417-433)

`useStep` keeps `currentStepIndex` in component state, starting at 0.
`next` maps the index through `Math.min(i + 1, steps.length - 1)`,
`previous` through `Math.max(i - 1, 0)` (natural subtraction models the
max with 0), `reset` sets it to 0. -/

inductive StepCmd where
  | next
  | previous
  | reset
  deriving DecidableEq, Repr

/-- One `useStep` command applied to the current index, for a `steps`
list of the given length. -/
def stepApply (len : Nat) (i : Nat) : StepCmd → Nat
  | .next => min (i + 1) (len - 1)
  | .previous => i - 1
  | .reset => 0

/-- The index reached by `useStep` after a sequence of commands,
starting from the initial index 0. -/
def stepRun (len : Nat) (cmds : List StepCmd) : Nat :=
  cmds.foldl (stepApply len) 0

/-! ## useAdvReducer (part_000 lines 80-88)

The returned reducer takes `state` (defaulting to `initialState` when
the caller passes `undefined`, modelled as `none`) and an action with a
string `type` field; it looks the type up in the `actions` record and
either applies the handler or returns the state unchanged. -/

/-- An action value with the `{ type: string }` shape required by
`useAdvReducer`, carrying an arbitrary payload. -/
structure JsAction (P : Type) where
  type : String
  payload : P

/-- The reducer produced by `useAdvReducer`.  The `actions` record is
modelled as an association list keyed by action type; `state = none`
models the omitted argument taking the default `initialState`. -/
def useAdvReducer {State P : Type}
    (initialState : State)
    (actions : List (String × (State → JsAction P → State)))
    (state : Option State) (action : JsAction P) : State :=
  let st := state.getD initialState
  match actions.lookup action.type with
  | some handler => handler st action
  | none => st

/-! ## useFetchRetry (part_000 lines 618-648)

The effect body runs `let attempts = 0; while (attempts < retries) {...}`:
each iteration performs one fetch of the url; on success it commits
`{ data, error: null, loading: false }` and returns; on failure it
increments `attempts` and, when `attempts >= retries`, commits
`{ data: null, error: message, loading: false }` before the loop guard
fails.  The network is modelled by an oracle mapping the attempt index
to that attempt's outcome (`.ok data` for a 2xx response with a parsed
body, `.error msg` for a thrown error).  The while loop is embedded
with explicit fuel, maintained equal to `retries - attempts`, so the
guard `attempts < retries` is exactly `fuel > 0`. -/

/-- The retry while-loop of `useFetchRetry`.  `fuel` equals
`retries - attempts` at every call, so `fuel = 0` is the loop guard
`attempts < retries` failing. -/
def fetchRetryGo {T : Type} (oracle : Nat → Except String T)
    (retries : Nat) : Nat → Nat → FetchState T → Nat × FetchState T
  | 0, attempts, st => (attempts, st)
  | fuel + 1, attempts, st =>
      match oracle attempts with
      | .ok d => (attempts + 1, ⟨some d, false, none⟩)
      | .error e =>
          fetchRetryGo oracle retries fuel (attempts + 1)
            (if retries ≤ attempts + 1 then ⟨none, false, some e⟩ else st)

/-- One run of the `useFetchRetry` effect for a fixed url (whose
network behaviour is `oracle`): attempts start at 0 and the committed
state starts as `{ data: null, error: null, loading: true }`.  Returns
the number of attempts made and the final committed state. -/
def useFetchRetryRun {T : Type} (oracle : Nat → Except String T)
    (retries : Nat) : Nat × FetchState T :=
  fetchRetryGo oracle retries retries 0 ⟨none, true, none⟩

/-- The effect re-runs from scratch on every url change (`attempts` is
a local of the effect closure): a sequence of urls, each with its own
network oracle, yields one independent run per url. -/
def useFetchRetryTrace {T : Type} (oracles : List (Nat → Except String T))
    (retries : Nat) : List (Nat × FetchState T) :=
  oracles.map (fun o => useFetchRetryRun o retries)

/-! ## useDebounce (part_000 lines 152-161) and useThrottle (163-172)

Both hooks run an effect on every change of the input value (and of
the delay): the effect schedules `setTimeout(() => setX(value), delay)`
and its cleanup — run before the next effect or on unmount — clears
the pending timeout.  A run is modelled over a trace of input updates
`(time, value)`: processing an update first fires the pending timer if
its fire time has already passed (committing its value), then cancels
it and schedules a new timer at `time + delay` carrying the new value.
Flushing at the end of the trace lets a still-pending timer fire. -/

/-- Timer-policy state: the pending `(fireTime, value)` timeout, if
any, and the list of `(time, value)` commits made so far. -/
structure TimerTrace (T : Type) where
  pending : Option (Nat × T)
  commits : List (Nat × T)
  deriving DecidableEq, Repr

/-- One input-value change processed by `useDebounce`: a pending timer
whose fire time has passed commits first; the effect cleanup then
clears any pending timer and the new effect schedules a commit of the
new value `delay` ms out. -/
def debounceStep {T : Type} (delay : Nat) (st : TimerTrace T)
    (upd : Nat × T) : TimerTrace T :=
  match st.pending with
  | some p =>
      if p.1 ≤ upd.1 then ⟨some (upd.1 + delay, upd.2), st.commits ++ [p]⟩
      else ⟨some (upd.1 + delay, upd.2), st.commits⟩
  | none => ⟨some (upd.1 + delay, upd.2), st.commits⟩

/-- A `useDebounce` run over a trace of input updates, starting with
no pending timer and no commits. -/
def debounceRun {T : Type} (delay : Nat) (upds : List (Nat × T)) :
    TimerTrace T :=
  upds.foldl (debounceStep delay) ⟨none, []⟩

/-- The commits of a `useDebounce` run once time advances past the
last scheduled fire time (the still-pending timer fires). -/
def debounceFlush {T : Type} (delay : Nat) (upds : List (Nat × T)) :
    List (Nat × T) :=
  match debounceRun delay upds with
  | ⟨some p, commits⟩ => commits ++ [p]
  | ⟨none, commits⟩ => commits

/-- One input-value change processed by `useThrottle` (source body
identical to `useDebounce` with `limit` in place of `delay`). -/
def throttleStep {T : Type} (limit : Nat) (st : TimerTrace T)
    (upd : Nat × T) : TimerTrace T :=
  match st.pending with
  | some p =>
      if p.1 ≤ upd.1 then ⟨some (upd.1 + limit, upd.2), st.commits ++ [p]⟩
      else ⟨some (upd.1 + limit, upd.2), st.commits⟩
  | none => ⟨some (upd.1 + limit, upd.2), st.commits⟩

/-- A `useThrottle` run over a trace of input updates. -/
def throttleRun {T : Type} (limit : Nat) (upds : List (Nat × T)) :
    TimerTrace T :=
  upds.foldl (throttleStep limit) ⟨none, []⟩

/-- The commits of a `useThrottle` run after the trailing timer
fires. -/
def throttleFlush {T : Type} (limit : Nat) (upds : List (Nat × T)) :
    List (Nat × T) :=
  match throttleRun limit upds with
  | ⟨some p, commits⟩ => commits ++ [p]
  | ⟨none, commits⟩ => commits

/-! ## useFetch (part_000 lines 96-119)

The effect's `fetchData` commits the fetch outcome with `setState`
unconditionally: the effect has no cleanup and its resolution consults
no still-active flag. -/

/-- The initial `useFetch` state `{ data: null, loading: true,
error: null }`. -/
def useFetchInitial {T : Type} : FetchState T := ⟨none, true, none⟩

/-- Resolution of `useFetch`'s request: success commits the parsed
body, failure commits the error message; there is no guard that could
suppress the commit. -/
def useFetchResolve {T : Type} (result : Except String T) : FetchState T :=
  match result with
  | .ok d => ⟨some d, false, none⟩
  | .error e => ⟨none, false, some e⟩

/-! ## useAxios (part_000 lines 23-78)

`cancelled` is React state; `cancelRequest` is `setCancelled(true)`.
`makeRequest` is a `useCallback` closure with deps
`[cancelled, axiosInstance]`: the closure reads the `cancelled`
binding of the render that created it, and an in-flight invocation
keeps that binding even if `cancelled` changes and the callback is
re-created afterwards.  `captured` below is that creation-time value
of `cancelled`. -/

/-- The `useAxios` component state. -/
structure AxiosState (T : Type) where
  data : Option T
  loading : Bool
  error : Option String
  cancelled : Bool
  deriving DecidableEq, Repr

/-- Initial `useAxios` state: all `useState` initialisers. -/
def axiosInitial {T : Type} : AxiosState T := ⟨none, false, none, false⟩

/-- `cancelRequest`: commits `setCancelled(true)`. -/
def cancelRequest {T : Type} (st : AxiosState T) : AxiosState T :=
  { st with cancelled := true }

/-- The synchronous prefix of `makeRequest` up to the `await`: with
the captured `cancelled` true it returns without issuing a request;
otherwise it commits `setLoading(true); setError(null)` and issues the
request.  Returns the new committed state and whether a request was
issued. -/
def makeRequestStart {T : Type} (captured : Bool) (st : AxiosState T) :
    AxiosState T × Bool :=
  if captured then (st, false)
  else ({ st with loading := true, error := none }, true)

/-- The resumption of `makeRequest` when the awaited response arrives:
the `if (!cancelled)` guards around `setData`/`setError` and the
`finally` clause's `setLoading(false)` all read the same captured
binding. -/
def makeRequestResolve {T : Type} (captured : Bool)
    (result : Except String T) (st : AxiosState T) : AxiosState T :=
  if captured then st
  else
    match result with
    | .ok d => { st with data := some d, loading := false }
    | .error e => { st with error := some e, loading := false }

/-! ## useDragDrop (hooksComp.tsx lines 107-176) -/

/-- The `useDragDrop` component state. -/
structure DragDropState where
  isDragging : Bool
  isOver : Bool
  draggedItemId : Option String
  overDropId : Option String
  deriving DecidableEq, Repr

/-- Initial `useDragDrop` state. -/
def dragDropInitial : DragDropState := ⟨false, false, none, none⟩

/-- `handleDragStart`: replaces the whole state (it does not read the
previous state). -/
def handleDragStart (dragId : String) : DragDropState :=
  ⟨true, false, some dragId, none⟩

/-- `handleDragOver`: marks `dropId` as the candidate unless it
already is. -/
def handleDragOver (st : DragDropState) (dropId : String) : DragDropState :=
  if st.overDropId ≠ some dropId then
    { st with isOver := true, overDropId := some dropId }
  else st

/-- `handleDragEnter`: marks `dropId` as the candidate. -/
def handleDragEnter (st : DragDropState) (dropId : String) : DragDropState :=
  { st with isOver := true, overDropId := some dropId }

/-- `handleDragLeave`: clears the candidate only when leaving the
current one. -/
def handleDragLeave (st : DragDropState) (dropId : String) : DragDropState :=
  if st.overDropId = some dropId then
    { st with isOver := false, overDropId := none }
  else st

/-- `handleDrop`: replaces the whole state with
`{ isDragging: false, isOver: false, draggedItemId: dragId,
overDropId: dropId }`, where `dragId` is read from the event's data
transfer payload. -/
def handleDrop (dataTransferDragId : String) (dropId : String) : DragDropState :=
  ⟨false, false, some dataTransferDragId, some dropId⟩

/-! ## Environment probe, useWindowSize, useBattery

`isReady` (part_000 lines 17-21) tests `typeof window` and
`typeof window.document`.  `useWindowSize` (lines 239-258) reads
`window.innerWidth` / `window.innerHeight` in its `useState`
initialiser with no guard; in an environment with no window object
that access throws a ReferenceError, modelled as `.error`.
`useBattery` (lines 976-1033) guards its effect with `isReady` and
commits `supported: false, loading: false` when the environment is not
ready. -/

/-- The execution environment: which globals exist, and the window
metrics when a window exists. -/
structure Env where
  hasWindow : Bool
  hasDocument : Bool
  innerWidth : Nat
  innerHeight : Nat
  deriving DecidableEq, Repr

/-- `isReady`: `typeof window !== "undefined" && typeof
window.document !== "undefined"`. -/
def isReady (env : Env) : Bool := env.hasWindow && env.hasDocument

/-- The `{ width, height }` record of `useWindowSize`. -/
structure WindowSize where
  width : Nat
  height : Nat
  deriving DecidableEq, Repr

/-- The `useState` initialiser of `useWindowSize`: an unguarded read
of `window.innerWidth` / `window.innerHeight`, which throws when no
window object exists. -/
def useWindowSizeInit (env : Env) : Except String WindowSize :=
  if env.hasWindow then Except.ok ⟨env.innerWidth, env.innerHeight⟩
  else Except.error "window is not defined"

/-- The `useBattery` state record (`BatteryState` in the source);
numeric fields are modelled opaquely. -/
structure BatteryState where
  supported : Bool
  loading : Bool
  level : Option Nat
  charging : Option Bool
  chargingTime : Option Nat
  dischargingTime : Option Nat
  deriving DecidableEq, Repr

/-- Initial `useBattery` state. -/
def useBatteryInitial : BatteryState := ⟨true, true, none, none, none, none⟩

/-- The synchronous part of the `useBattery` effect: when the
environment is not ready it commits `supported: false,
loading: false` and returns; otherwise it calls
`navigator.getBattery()` and leaves the committed state unchanged
until the promise resolves.  The body only probes `typeof window`, so
it never throws — the result is always `.ok`. -/
def useBatteryEffect (env : Env) (st : BatteryState) : Except String BatteryState :=
  if isReady env = false then
    Except.ok { st with supported := false, loading := false }
  else Except.ok st

/-! ## useLocalStorage (part_000 lines 121-141) and
usePersistedState (lines 568-579)

`parse` models `JSON.parse` (`.error` is a thrown SyntaxError) and
`store` models `localStorage.getItem` (`none` is a null result).
JavaScript string truthiness makes `item ? parse(item) : default`
take the default for the empty string as well. -/

/-- JS truthiness of a string: nonempty. -/
def jsTruthy (s : String) : Bool := s ≠ ""

/-- The lazy `useState` initialiser of `useLocalStorage`: wrapped in
try/catch, so a parse failure falls back to `initialValue`. -/
def useLocalStorageInit {T : Type} (parse : String → Except String T)
    (store : String → Option String) (key : String) (initialValue : T) : T :=
  match store key with
  | some item =>
      if jsTruthy item then
        match parse item with
        | .ok v => v
        | .error _ => initialValue
      else initialValue
  | none => initialValue

/-- The lazy `useState` initialiser of `usePersistedState`: no
try/catch, so a parse failure propagates to the consumer. -/
def usePersistedStateInit {T : Type} (parse : String → Except String T)
    (store : String → Option String) (key : String) (initialValue : T) :
    Except String T :=
  match store key with
  | some saved => if jsTruthy saved then parse saved else Except.ok initialValue
  | none => Except.ok initialValue

/-! ## useHover (hooksComp.tsx lines 3-24) and
useResizeObserver (part_000 lines 479-502)

Registered listeners are modelled as a list of (element id, event
name) pairs, one entry per `addEventListener` call; resize
observations as a list of observed element ids.  `useHover` captures
`node = ref.current` once, at setup, and its cleanup removes listeners
from that same captured node.  `useResizeObserver`'s cleanup instead
re-reads `ref.current` at teardown time and unobserves whatever the
ref points to then. -/

/-- `useHover` effect setup: with a null ref it registers nothing;
otherwise it adds mouseover and mouseout listeners on the node. -/
def useHoverSetup (node : Option Nat) (L : List (Nat × String)) :
    List (Nat × String) :=
  match node with
  | none => L
  | some n => (n, "mouseover") :: (n, "mouseout") :: L

/-- `useHover` effect cleanup: removes the two listeners from the node
captured at setup. -/
def useHoverCleanup (node : Option Nat) (L : List (Nat × String)) :
    List (Nat × String) :=
  match node with
  | none => L
  | some n => (L.erase (n, "mouseover")).erase (n, "mouseout")

/-- `useResizeObserver` effect setup: observes the element the ref
points to at setup time (if non-null). -/
def resizeObserverSetup (refCurrent : Option Nat) (obs : List Nat) : List Nat :=
  match refCurrent with
  | some el => el :: obs
  | none => obs

/-- `useResizeObserver` effect cleanup: unobserves the element the ref
points to at teardown time (if non-null) — not necessarily the one
observed at setup. -/
def resizeObserverCleanup (refCurrent : Option Nat) (obs : List Nat) : List Nat :=
  match refCurrent with
  | some el => obs.erase el
  | none => obs

end ReactHooks

namespace ReactHooks

/-! ## Theorems -/

/-- Helper: within a burst (each update arriving strictly less than
`delay` ms after the previous one) no scheduled timer ever fires
before being superseded, so folding from a freshly scheduled timer
leaves the commits untouched and the pending timer carrying the last
update. -/
theorem debounce_foldl_burst {T : Type} (delay : Nat) :
    ∀ (rest : List (Nat × T)) (t : Nat) (v : T) (C : List (Nat × T))
      (l : Nat × T),
      List.Chain' (fun a b : Nat × T => b.1 < a.1 + delay) ((t, v) :: rest) →
      ((t, v) :: rest).getLast? = some l →
      rest.foldl (debounceStep delay) ⟨some (t + delay, v), C⟩
        = ⟨some (l.1 + delay, l.2), C⟩ := by
  intro rest
  induction rest with
  | nil =>
      intro t v C l _ hlast
      simp only [List.getLast?_singleton, Option.some.injEq] at hlast
      subst hlast
      rfl
  | cons u rest ih =>
      intro t v C l hchain hlast
      obtain ⟨tu, vu⟩ := u
      have hgap : tu < t + delay := (List.chain'_cons.mp hchain).1
      have hchain' : List.Chain' (fun a b : Nat × T => b.1 < a.1 + delay)
          ((tu, vu) :: rest) := (List.chain'_cons.mp hchain).2
      have hstep : debounceStep delay ⟨some (t + delay, v), C⟩ (tu, vu)
          = ⟨some (tu + delay, vu), C⟩ := by
        simp [debounceStep, Nat.not_le.mpr hgap]
      have hlast' : ((tu, vu) :: rest).getLast? = some l := by
        rw [List.getLast?_cons_cons] at hlast
        exact hlast
      rw [List.foldl_cons, hstep]
      exact ih tu vu C l hchain' hlast'

/-- C3: for every burst of input updates each arriving strictly less
than `delay` ms after the previous one, `useDebounce` performs exactly
one commit, carrying the last update's value, at time
`lastUpdateTime + delay` (hence at least `delay` ms after the last
update); every pending commit superseded during the burst is cancelled
without firing. -/
theorem useDebounce_burst_single_commit {T : Type} (delay : Nat)
    (upds : List (Nat × T)) (l : Nat × T)
    (hburst : List.Chain' (fun a b : Nat × T => b.1 < a.1 + delay) upds)
    (hlast : upds.getLast? = some l) :
    debounceFlush delay upds = [(l.1 + delay, l.2)] := by
  cases upds with
  | nil => simp at hlast
  | cons u rest =>
      rcases u with ⟨t, v⟩
      have hrun : debounceRun delay ((t, v) :: rest)
          = ⟨some (l.1 + delay, l.2), []⟩ := by
        unfold debounceRun
        rw [List.foldl_cons]
        have hfirst : debounceStep delay ⟨none, []⟩ (t, v)
            = ⟨some (t + delay, v), []⟩ := rfl
        rw [hfirst]
        exact debounce_foldl_burst delay rest t v [] l hburst hlast
      unfold debounceFlush
      rw [hrun]
      rfl

/-- C3 witness: a concrete burst of three updates with gaps below the
delay commits exactly once, the last value, ten ms after the last
update. -/
theorem useDebounce_burst_single_commit_witness :
    debounceFlush 10 [(0, 1), (5, 2), (9, 3)] = [(19, (3 : Nat))] :=
  useDebounce_burst_single_commit 10 [(0, 1), (5, 2), (9, 3)] (9, 3)
    (by simp [List.chain'_cons]) rfl

/-- C4: `useThrottle` is behaviourally identical to `useDebounce`: on
every input trace and every delay the two produce the same committed
sequence (schedule-and-supersede on every change, trailing-edge
commit); in particular a concrete 6-update trace spanning 45 ms with
limit 10 produces a single trailing commit rather than fixed-cadence
samples. -/
theorem useThrottle_eq_useDebounce :
    (∀ (T : Type) (limit : Nat) (upds : List (Nat × T)),
      throttleFlush limit upds = debounceFlush limit upds) ∧
    throttleFlush 10 [(0, 1), (9, 2), (18, 3), (27, 4), (36, 5), (45, 6)]
      = [(55, (6 : Nat))] := by
  constructor
  · intro T limit upds
    rfl
  · rfl

/-- Helper: if attempts `j, ..., k-1` fail and attempt `k < retries`
succeeds with `d`, the retry loop entered at attempt `j ≤ k` with the
correct fuel commits the success state after attempt `k`. -/
theorem fetchRetryGo_ok {T : Type} (oracle : Nat → Except String T)
    (retries k : Nat) (e : Nat → String) (d : T)
    (hk : k < retries)
    (hfail : ∀ i, i < k → oracle i = Except.error (e i))
    (hok : oracle k = Except.ok d) :
    ∀ fuel j st, j + fuel = retries → j ≤ k →
      fetchRetryGo oracle retries fuel j st = (k + 1, ⟨some d, false, none⟩) := by
  intro fuel
  induction fuel with
  | zero => intro j st hfuel hj; omega
  | succ n ih =>
      intro j st hfuel hj
      rcases Nat.lt_or_ge j k with hjk | hjk
      · rw [fetchRetryGo, hfail j hjk]
        have hlt : ¬ retries ≤ j + 1 := by omega
        simp only [if_neg hlt]
        exact ih (j + 1) st (by omega) (by omega)
      · have hjeq : j = k := by omega
        subst hjeq
        rw [fetchRetryGo, hok]

/-- Helper: if every attempt from `j` up to `retries` fails, the retry
loop entered at attempt `j < retries` with the correct fuel makes all
remaining attempts and commits the final attempt's error. -/
theorem fetchRetryGo_err {T : Type} (oracle : Nat → Except String T)
    (retries : Nat) (e : Nat → String)
    (hfail : ∀ i, i < retries → oracle i = Except.error (e i)) :
    ∀ fuel j st, j + fuel = retries → j < retries →
      fetchRetryGo oracle retries fuel j st
        = (retries, ⟨none, false, some (e (retries - 1))⟩) := by
  intro fuel
  induction fuel with
  | zero => intro j st hfuel hj; omega
  | succ n ih =>
      intro j st hfuel hj
      rw [fetchRetryGo, hfail j hj]
      rcases Nat.lt_or_ge (j + 1) retries with hlt | hge
      · have hnot : ¬ retries ≤ j + 1 := by omega
        simp only [if_neg hnot]
        exact ih (j + 1) st (by omega) hlt
      · have hyes : retries ≤ j + 1 := hge
        simp only [if_pos hyes]
        have hn : n = 0 := by omega
        have hjlast : j = retries - 1 := by omega
        subst hn
        rw [fetchRetryGo]
        simp [hjlast]
        omega

/-- C2: for `useFetchRetry` with bound `retries`: if the fetch fails
the first `k < retries` times and then succeeds with `d`, the run
commits the success state `{ data: d, error: null, loading: false }`
after exactly `k + 1` attempts; if every attempt fails, exactly
`retries` attempts are made and the run commits the final attempt's
error with loading cleared; and a url change yields a fresh run whose
attempt counter restarts at zero (the trace of runs is per-url,
independent of history). -/
theorem useFetchRetry_bounded_retry {T : Type} :
    (∀ (oracle : Nat → Except String T) (retries k : Nat)
        (e : Nat → String) (d : T),
      k < retries →
      (∀ i, i < k → oracle i = Except.error (e i)) →
      oracle k = Except.ok d →
      useFetchRetryRun oracle retries = (k + 1, ⟨some d, false, none⟩)) ∧
    (∀ (oracle : Nat → Except String T) (retries : Nat) (e : Nat → String),
      0 < retries →
      (∀ i, i < retries → oracle i = Except.error (e i)) →
      useFetchRetryRun oracle retries
        = (retries, ⟨none, false, some (e (retries - 1))⟩)) ∧
    (∀ (os : List (Nat → Except String T)) (o : Nat → Except String T)
        (retries : Nat),
      useFetchRetryTrace (os ++ [o]) retries
        = useFetchRetryTrace os retries ++ [useFetchRetryRun o retries]) := by
  refine ⟨?_, ?_, ?_⟩
  · intro oracle retries k e d hk hfail hok
    exact fetchRetryGo_ok oracle retries k e d hk hfail hok retries 0 _
      (by omega) (by omega)
  · intro oracle retries e hpos hfail
    exact fetchRetryGo_err oracle retries e hfail retries 0 _ (by omega) hpos
  · intro os o retries
    simp [useFetchRetryTrace]

/-- C2 witness: a concrete oracle that fails once then succeeds with
42 under `retries = 3` commits success after 2 attempts, and one that
always fails makes exactly 3 attempts and commits the last error. -/
theorem useFetchRetry_bounded_retry_witness :
    useFetchRetryRun
      (fun i => if i = 0 then Except.error "boom" else Except.ok 42) 3
      = (2, ⟨some 42, false, none⟩) ∧
    useFetchRetryRun
      (fun i => (Except.error (String.append "fail" (toString i)) : Except String Nat)) 3
      = (3, ⟨none, false, some "fail2"⟩) := by
  constructor
  · exact (useFetchRetry_bounded_retry (T := Nat)).1
      (fun i => if i = 0 then Except.error "boom" else Except.ok 42) 3 1
      (fun _ => "boom") 42 (by decide)
      (by intro i hi; interval_cases i <;> rfl) rfl
  · exact (useFetchRetry_bounded_retry (T := Nat)).2.1
      (fun i => Except.error (String.append "fail" (toString i))) 3
      (fun i => String.append "fail" (toString i)) (by decide)
      (by intro i hi; rfl)

/-- Helper: every `useStep` command keeps the index at most
`len - 1`, provided it was in bounds before. -/
theorem stepApply_le (len : Nat) (i : Nat)
    (hi : i ≤ len - 1) (c : StepCmd) : stepApply len i c ≤ len - 1 := by
  cases c with
  | next => exact min_le_right _ _
  | previous => exact le_trans (Nat.sub_le i 1) hi
  | reset => exact Nat.zero_le _

/-- C9: for every non-empty steps list, the index maintained by
`useStep` stays within `[0, steps.length - 1]` under every sequence of
next/previous/reset commands; `next` at the last index stays at the
last index, `previous` at index 0 stays at 0, and `reset` returns the
index to 0. -/
theorem useStep_index_in_bounds {T : Type} (steps : List T)
    (hlen : 0 < steps.length) :
    (∀ cmds : List StepCmd, stepRun steps.length cmds ≤ steps.length - 1) ∧
    stepApply steps.length (steps.length - 1) .next = steps.length - 1 ∧
    stepApply steps.length 0 .previous = 0 ∧
    (∀ i : Nat, stepApply steps.length i .reset = 0) := by
  refine ⟨?_, ?_, ?_, ?_⟩
  · intro cmds
    have key : ∀ (l : List StepCmd) (i : Nat), i ≤ steps.length - 1 →
        l.foldl (stepApply steps.length) i ≤ steps.length - 1 := by
      intro l
      induction l with
      | nil => intro i hi; simpa using hi
      | cons c cs ih =>
          intro i hi
          exact ih _ (stepApply_le _ _ hi c)
    exact key cmds 0 (Nat.zero_le _)
  · simp [stepApply]
  · rfl
  · intro i; rfl

/-- C9 witness: instantiation with a concrete 3-element steps list and
a concrete command sequence. -/
theorem useStep_index_in_bounds_witness :
    stepRun 3 [StepCmd.next, .next, .next, .previous, .reset, .next] ≤ 2 :=
  (useStep_index_in_bounds [10, 20, 30] (by decide)).1 _

/-- C10: the reducer built by `useAdvReducer` is total over action
types: an action whose type has no entry in the actions record leaves
the state unchanged, and an action whose type has an entry yields
exactly that handler applied to the state and action; an omitted state
argument defaults to `initialState`. -/
theorem useAdvReducer_total {State P : Type}
    (initialState : State)
    (actions : List (String × (State → JsAction P → State)))
    (s : State) (a : JsAction P) :
    (actions.lookup a.type = none →
      useAdvReducer initialState actions (some s) a = s) ∧
    (∀ h, actions.lookup a.type = some h →
      useAdvReducer initialState actions (some s) a = h s a) ∧
    (actions.lookup a.type = none →
      useAdvReducer initialState actions none a = initialState) := by
  refine ⟨?_, ?_, ?_⟩
  · intro hnone; simp [useAdvReducer, hnone]
  · intro h hsome; simp [useAdvReducer, hsome]
  · intro hnone; simp [useAdvReducer, hnone]

/-- C10 witness: a concrete reducer over Nat states with one
registered action type, evaluated at a hit and at a miss. -/
theorem useAdvReducer_total_witness :
    useAdvReducer 0 [("inc", fun s (_ : JsAction Nat) => s + 1)]
      (some 5) ⟨"dec", 0⟩ = 5 ∧
    useAdvReducer 0 [("inc", fun s (_ : JsAction Nat) => s + 1)]
      (some 5) ⟨"inc", 0⟩ = 6 := by
  constructor
  · exact (useAdvReducer_total 0
      [("inc", fun s (_ : JsAction Nat) => s + 1)] 5 ⟨"dec", 0⟩).1
      (by simp [List.lookup])
  · exact (useAdvReducer_total 0
      [("inc", fun s (_ : JsAction Nat) => s + 1)] 5 ⟨"inc", 0⟩).2.1
      (fun s (_ : JsAction Nat) => s + 1) (by simp [List.lookup])

/-- C1: the claim says a resolution arriving after `cancelRequest`
leaves the value cell unchanged.  The code violates it: a request
issued while `cancelled` was false keeps that captured binding, so
after `cancelRequest` its resolution still commits.  Concretely: start
a request from the initial state (captured `cancelled` is false),
cancel, then resolve with body 7 — `data` changes from `none` to
`some 7` instead of staying `none`.  `useFetch`'s resolution likewise
commits unconditionally: it consults no still-active flag at all. -/
theorem useAxios_cancelRequest_inflight_commits :
    makeRequestResolve false (Except.ok 7)
        (cancelRequest (makeRequestStart false (axiosInitial (T := Nat))).1)
      = ⟨some 7, false, none, true⟩ ∧
    (cancelRequest (makeRequestStart false (axiosInitial (T := Nat))).1).data
      = none ∧
    useFetchResolve (Except.ok 7) ≠ (useFetchInitial (T := Nat)) := by
  decide

/-- C5 counterexample: the claim says the state after `handleDrop` has
`overDropId = null`.  In the reachable trace drag-start on "a",
drag-enter on "b", drop on "b", the drop transition sets
`overDropId` to the drop target's id, not null. -/
theorem useDragDrop_drop_counterexample :
    (handleDragEnter (handleDragStart "a") "b").overDropId = some "b" ∧
    (handleDrop "a" "b").overDropId ≠ none ∧
    (handleDrop "a" "b").overDropId = some "b" := by
  refine ⟨rfl, ?_, rfl⟩
  decide

/-- C5 amended: `overDropId` tracks the current drop-target candidate
and is cleared (set to null) by drag-leave on the current candidate;
the drop transition does not clear it — after `handleDrop` fires the
resulting state is `{ isDragging: false, isOver: false,
draggedItemId: dragId, overDropId: dropId }`. -/
theorem useDragDrop_overDropId_amended (st : DragDropState)
    (dragId dropId : String) (h : st.overDropId = some dropId) :
    (handleDragLeave st dropId).overDropId = none ∧
    handleDrop dragId dropId = ⟨false, false, some dragId, some dropId⟩ := by
  constructor
  · simp [handleDragLeave, h]
  · rfl

/-- C5 amended witness: a concrete state with candidate "b" cleared by
leave, and a concrete drop. -/
theorem useDragDrop_overDropId_amended_witness :
    (handleDragLeave (handleDragEnter (handleDragStart "a") "b") "b").overDropId
      = none ∧
    handleDrop "a" "b" = ⟨false, false, some "a", some "b"⟩ :=
  useDragDrop_overDropId_amended (handleDragEnter (handleDragStart "a") "b")
    "a" "b" rfl

/-- C6 counterexample: the claim says activation in a context without
the underlying capability reports `supported: false` and never throws,
in particular for `useWindowSize` in a no-window environment.  In a
no-window environment `useWindowSize`'s state initialiser reads
`window.innerWidth` unguarded and throws. -/
theorem useWindowSize_nowindow_counterexample :
    useWindowSizeInit ⟨false, false, 0, 0⟩
      = Except.error "window is not defined" := rfl

/-- C6 amended: `useBattery` in a no-window environment commits
`supported: false, loading: false` without throwing, but
`useWindowSize` has no such guard: its activation throws in a
no-window environment (and its state has no supported flag). -/
theorem useBattery_unsupported_amended (env : Env) (st : BatteryState)
    (h : env.hasWindow = false) :
    useBatteryEffect env st
      = Except.ok { st with supported := false, loading := false } ∧
    ∃ msg, useWindowSizeInit env = Except.error msg := by
  have hready : isReady env = false := by simp [isReady, h]
  constructor
  · simp [useBatteryEffect, hready]
  · exact ⟨"window is not defined", by simp [useWindowSizeInit, h]⟩

/-- C6 amended witness: the no-window environment. -/
theorem useBattery_unsupported_amended_witness :
    useBatteryEffect ⟨false, false, 0, 0⟩ useBatteryInitial
      = Except.ok ⟨false, false, none, none, none, none⟩ ∧
    ∃ msg, useWindowSizeInit ⟨false, false, 0, 0⟩ = Except.error msg :=
  useBattery_unsupported_amended ⟨false, false, 0, 0⟩ useBatteryInitial rfl

/-- C7 counterexample: the claim says every storage adapter yields the
supplied default on a corrupted stored value without raising.  With a
stored value on which `JSON.parse` fails, `usePersistedState`'s
initialiser (which has no try/catch) propagates the parse exception
instead of yielding the default. -/
theorem usePersistedState_corrupted_counterexample :
    usePersistedStateInit
      (fun s => if s = "1" then Except.ok (1 : Nat)
                else Except.error "Unexpected token")
      (fun _ => some "corrupt") "key" 0
      = Except.error "Unexpected token" := rfl

/-- C7 amended: on a corrupted stored value (present, truthy, failing
to parse), `useLocalStorage` yields the supplied default without
raising, while `usePersistedState` propagates the parse exception. -/
theorem storage_corrupted_amended {T : Type}
    (parse : String → Except String T) (store : String → Option String)
    (key s msg : String) (initialValue : T)
    (hstore : store key = some s) (hs : jsTruthy s = true)
    (hparse : parse s = Except.error msg) :
    useLocalStorageInit parse store key initialValue = initialValue ∧
    usePersistedStateInit parse store key initialValue
      = Except.error msg := by
  constructor
  · simp [useLocalStorageInit, hstore, hs, hparse]
  · simp [usePersistedStateInit, hstore, hs, hparse]

/-- C7 amended witness: a concrete corrupted store. -/
theorem storage_corrupted_amended_witness :
    useLocalStorageInit
      (fun s => if s = "1" then Except.ok (1 : Nat)
                else Except.error "Unexpected token")
      (fun _ => some "corrupt") "key" 0 = 0 ∧
    usePersistedStateInit
      (fun s => if s = "1" then Except.ok (1 : Nat)
                else Except.error "Unexpected token")
      (fun _ => some "corrupt") "key" 0
      = Except.error "Unexpected token" :=
  storage_corrupted_amended
    (fun s => if s = "1" then Except.ok (1 : Nat)
              else Except.error "Unexpected token")
    (fun _ => some "corrupt") "key" "corrupt" "Unexpected token" 0
    rfl rfl rfl

/-- C8 counterexample: the claim says activate-then-deactivate leaves
zero residual observations even when the bound element reference
changed between setup and teardown.  For `useResizeObserver`, setting
up with the ref on element 1 and tearing down after the ref moved to
element 2 leaves element 1 observed: the observation count is 1, not
the pre-activation 0. -/
theorem useResizeObserver_residual_counterexample :
    resizeObserverCleanup (some 2) (resizeObserverSetup (some 1) []) = [1] := by
  decide

/-- C8 amended: teardown restores the pre-activation listener state
when the reference is the one captured at setup — always for
`useHover` (which captures the node once), and for `useResizeObserver`
when the ref is unchanged between setup and teardown; when the ref
changed to a different element, `useResizeObserver`'s teardown leaves
the originally observed element still observed. -/
theorem listener_teardown_amended (node : Option Nat)
    (L : List (Nat × String)) (r : Option Nat) (obs : List Nat)
    (a b : Nat) (h : a ≠ b) :
    useHoverCleanup node (useHoverSetup node L) = L ∧
    resizeObserverCleanup r (resizeObserverSetup r obs) = obs ∧
    resizeObserverCleanup (some b) (resizeObserverSetup (some a) obs)
      = a :: obs.erase b := by
  refine ⟨?_, ?_, ?_⟩
  · cases node with
    | none => rfl
    | some n => simp [useHoverSetup, useHoverCleanup]
  · cases r with
    | none => rfl
    | some el => simp [resizeObserverSetup, resizeObserverCleanup]
  · simp [resizeObserverSetup, resizeObserverCleanup,
      List.erase_cons_tail, h]

/-- C8 amended witness: concrete node, registry, refs and elements. -/
theorem listener_teardown_amended_witness :
    useHoverCleanup (some 5) (useHoverSetup (some 5) [(9, "click")])
      = [(9, "click")] ∧
    resizeObserverCleanup (some 3) (resizeObserverSetup (some 3) [7]) = [7] ∧
    resizeObserverCleanup (some 2) (resizeObserverSetup (some 1) [7]) = [1, 7] := by
  have h := listener_teardown_amended (some 5) [(9, "click")] (some 3) [7]
    1 2 (by decide)
  exact ⟨h.1, h.2.1, by simpa using h.2.2⟩

end ReactHooks
